import Mathlib

/-!
Verification of the MedleyDB `multitrack.py` module.

This file gives a shallow embedding of `src/medleydb/multitrack.py`:
the `MultiTrack` and `Track` classes, the free helper functions
(`format_index`, `get_dict_leaves`, `read_annotation_file`, ...), and the
construction pipeline, together with theorems about their behaviour.

Python exceptions are modelled with `Except PyError`; the filesystem and
the module-level configuration (`METADATA_PATH`, `ANNOT_PATH`,
`AUDIO_PATH`, `MIXING_COEFFICIENTS`, `INST_F0_TYPE`) are an explicit
environment.  Python floats are modelled as exact decimal numbers
(`Dec`), which is faithful for the comma-separated decimal notation the
annotation files use; the external libraries (yaml, csv tokenisation,
sox) are treated as oracles: a file is already a structured value.
-/

deriving instance DecidableEq for Except

/-- The kinds of Python exception the embedded code can raise. -/
inductive PyError where
  | ioError
  | keyError
  | valueError
  | typeError
  | indexError
  | stopIteration
  | yamlError
  | soxError
deriving DecidableEq, Repr, Inhabited

/-- Exact decimal number: `mant / 10 ^ scale`.  Stands in for a Python
float produced from decimal text.  Kept in the canonical form produced
by `decNormalize`, so that two parses of the same decimal value are
equal. -/
structure Dec where
  mant : Int
  scale : Nat
deriving DecidableEq, Repr, Inhabited

/-- Strip trailing decimal zeros, giving the canonical representation. -/
def decNormalize : Int → Nat → Dec
  | m, 0 => ⟨m, 0⟩
  | m, s + 1 => if m % 10 = 0 then decNormalize (m / 10) s else ⟨m, s + 1⟩

/-- Integer value as a `Dec`. -/
def decOfInt (n : Int) : Dec := ⟨n, 0⟩

/-- Digit value of a character, if it is a decimal digit. -/
def digitVal (c : Char) : Option Nat :=
  if c.isDigit then some (c.toNat - 48) else none

/-- Parse a nonempty all-digit character list as a natural number. -/
def parseDigits (cs : List Char) : Option Nat :=
  if cs.isEmpty then none
  else List.foldlM (fun acc c => (digitVal c).map (fun d => acc * 10 + d)) 0 cs

/-- Model of the Python builtin `int` applied to a string: an optional
sign followed by decimal digits; `none` models a `ValueError`. -/
def pyInt (s : String) : Option Int :=
  match s.toList with
  | '-' :: rest => (parseDigits rest).map (fun n => -(n : Int))
  | '+' :: rest => (parseDigits rest).map (fun n => (n : Int))
  | cs => (parseDigits cs).map (fun n => (n : Int))

/-- Accumulate a digit list into a natural number (used for the integer
and fractional parts of a decimal literal). -/
def digitsToNat (cs : List Char) : Nat :=
  cs.foldl (fun a c => a * 10 + (c.toNat - 48)) 0

/-- Magnitude part of the Python builtin `float` on decimal notation:
digits, optionally followed by a dot and more digits. -/
def pyFloatMag (cs : List Char) : Option Dec :=
  let ip := cs.takeWhile Char.isDigit
  let rest := cs.dropWhile Char.isDigit
  match rest with
  | [] => (parseDigits ip).map (fun n => decOfInt (n : Int))
  | '.' :: fp =>
      if fp.all Char.isDigit && !(ip.isEmpty && fp.isEmpty) then
        some (decNormalize ((digitsToNat ip : Int) * (10 : Int) ^ fp.length
          + (digitsToNat fp : Int)) fp.length)
      else none
  | _ => none

/-- Model of the Python builtin `float` on a string of decimal notation;
`none` models a `ValueError`. -/
def pyFloat (s : String) : Option Dec :=
  match s.toList with
  | '-' :: rest => (pyFloatMag rest).map (fun d => ⟨-d.mant, d.scale⟩)
  | '+' :: rest => pyFloatMag rest
  | cs => pyFloatMag cs

/-- Model of Python `str.strip(c)` for a single character: removes every
leading and every trailing occurrence of `c`. -/
def pyStrip (s : String) (c : Char) : String :=
  String.mk (((s.toList.dropWhile (· = c)).reverse.dropWhile (· = c)).reverse)

/-- Model of Python `str.split(c)` for a single-character separator. -/
def splitChar (c : Char) : List Char → List (List Char)
  | [] => [[]]
  | x :: xs =>
    let r := splitChar c xs
    if x = c then [] :: r
    else
      match r with
      | g :: gs => (x :: g) :: gs
      | [] => [[x]]

/-- Python `s.split(c)` returning strings. -/
def pySplit (s : String) (c : Char) : List String :=
  (splitChar c s.toList).map String.mk

/-- Python `s[n:]`. -/
def pyDrop (s : String) (n : Nat) : String := String.mk (s.toList.drop n)

/-- Python `os.path.join` for the paths this module builds. -/
def pjoin (a b : String) : String := a ++ "/" ++ b

/-- Python dict insertion on an insertion-ordered association list:
assigning to an existing key updates it in place, a new key is appended
at the end. -/
def dictInsert {α β : Type} [DecidableEq α] (d : List (α × β)) (k : α) (v : β) :
    List (α × β) :=
  if d.any (fun p => decide (p.1 = k)) then
    d.map (fun p => if p.1 = k then (k, v) else p)
  else d ++ [(k, v)]

/-- Python dict lookup on an association list (first matching key). -/
def alookup {α β : Type} [DecidableEq α] (d : List (α × β)) (k : α) : Option β :=
  (d.find? (fun p => decide (p.1 = k))).map (fun p => p.2)

/-- A stem or raw index argument, as the Python code receives it:
an int, a string such as "S05", or None. -/
inductive PyIndex where
  | int : Int → PyIndex
  | str : String → PyIndex
  | pynone : PyIndex
deriving DecidableEq, Repr

/-- `format_index` on the string case:
`int(index.strip('S').strip('R'))` from the source. -/
def format_index_str (s : String) : Except PyError Int :=
  match pyInt (pyStrip (pyStrip s 'S') 'R') with
  | some n => Except.ok n
  | none => Except.error PyError.valueError

/-- Embedding of `format_index` (multitrack.py, lines 655-675). -/
def format_index : PyIndex → Except PyError (Option Int)
  | PyIndex.str s => (format_index_str s).map (fun n => some n)
  | PyIndex.int n => Except.ok (some n)
  | PyIndex.pynone => Except.ok none

/-- The normalization described by the claim wording for C4: strip a
single leading uppercase `S` or `R` and parse the remainder as an
integer.  Written from the claim, to be compared with `format_index`. -/
def claim_format_index_str (s : String) : Except PyError Int :=
  let s1 :=
    match s.toList with
    | 'S' :: rest => String.mk rest
    | 'R' :: rest => String.mk rest
    | _ => s
  match pyInt s1 with
  | some n => Except.ok n
  | none => Except.error PyError.valueError

/-- Claim C4 counterexample: on the string "SS05" the code strips every
leading and trailing `S` (Python str.strip semantics) and returns 5,
while the normalization stated by the claim strips a single leading `S`
and then fails to parse "S05" as an integer. -/
theorem format_index_single_strip_counterexample :
    format_index (PyIndex.str "SS05") = Except.ok (some 5) ∧
    claim_format_index_str "SS05" = Except.error PyError.valueError := by
  constructor <;> decide

/-- Claim C4 (amended): format_index maps "S05" to 5, "R02" to 2, the
integer 5 to 5, and None to None; on every string it strips all leading
and trailing `S` characters, then all leading and trailing `R`
characters (case-sensitive, uppercase only), and parses the remainder as
an integer, with no validation of the numeric range. -/
theorem format_index_spec :
    format_index (PyIndex.str "S05") = Except.ok (some 5) ∧
    format_index (PyIndex.str "R02") = Except.ok (some 2) ∧
    format_index (PyIndex.int 5) = Except.ok (some 5) ∧
    format_index PyIndex.pynone = Except.ok none ∧
    (∀ s : String, format_index (PyIndex.str s) =
      (match pyInt (pyStrip (pyStrip s 'S') 'R') with
       | some n => Except.ok (some n)
       | none => Except.error PyError.valueError)) ∧
    (∀ n : Int, format_index (PyIndex.int n) = Except.ok (some n)) := by
  refine ⟨by decide, by decide, rfl, rfl, ?_, fun n => rfl⟩
  intro s
  simp only [format_index, format_index_str]
  cases h : pyInt (pyStrip (pyStrip s 'S') 'R') <;> simp [h, Except.map]

/-- Raw-source entry of the per-stem metadata (keys under `raw`). -/
structure RawMeta where
  instrument : String
  filename : String
deriving DecidableEq, Repr, Inhabited

/-- Stem entry of the metadata `stems` mapping. -/
structure StemMeta where
  instrument : String
  component : String
  filename : String
  raw : List (String × RawMeta)
deriving DecidableEq, Repr, Inhabited

/-- The fields of the per-track YAML metadata file the module reads. -/
structure Metadata where
  excerpt : String
  has_bleed : String
  instrumental : String
  origin : String
  genre : String
  version : String
  stems : List (String × StemMeta)
deriving DecidableEq, Repr, Inhabited

/-- Content of a file, as the external format libraries deliver it:
a parsed YAML metadata document, comma-separated text already split into
rows of fields, or an audio file of a given duration (seconds). -/
inductive FileContent where
  | yamlMeta : Metadata → FileContent
  | text : List (List String) → FileContent
  | audio : Dec → FileContent
deriving DecidableEq, Repr, Inhabited

/-- A filesystem: maps a path to the content of the file there, or
`none` when no file exists at that path. -/
abbrev FS := String → Option FileContent

/-- Annotation data: a list of rows of float values. -/
abbrev Ann := List (List Dec)

/-- Truthiness of the Python `num_cols` argument: `None` and `0` are
falsy, so `if num_cols:` skips the truncation for both. -/
def truthyNat : Option Nat → Bool
  | some n => decide (n ≠ 0)
  | none => false

/-- The `line = line[:num_cols]` step of `read_annotation_file`:
truncation happens only when `num_cols` is truthy. -/
def py_truncate (num_cols : Option Nat) (line : List String) : List String :=
  if truthyNat num_cols then line.take (num_cols.getD 0) else line

/-- `float(val)` on one field; a non-numeric field raises ValueError. -/
def parse_float_field (v : String) : Except PyError Dec :=
  match pyFloat v with
  | some q => Except.ok q
  | none => Except.error PyError.valueError

/-- Map a fallible function over a list, stopping at the first raised
exception (a Python list comprehension over a fallible function). -/
def mapExcept {α β : Type} (f : α → Except PyError β) : List α → Except PyError (List β)
  | [] => Except.ok []
  | x :: xs =>
      match f x with
      | Except.error e => Except.error e
      | Except.ok y =>
          match mapExcept f xs with
          | Except.error e => Except.error e
          | Except.ok ys => Except.ok (y :: ys)

/-- The `for line in linereader` loop of `read_annotation_file`:
truncate the line, parse every kept field with `float`, and append the
parsed row to the accumulated annotation. -/
def annotationLoop (num_cols : Option Nat) :
    Ann → List (List String) → Except PyError Ann
  | acc, [] => Except.ok acc
  | acc, line :: rest =>
      match mapExcept parse_float_field (py_truncate num_cols line) with
      | Except.error e => Except.error e
      | Except.ok q => annotationLoop num_cols (acc ++ [q]) rest

/-- The header step of `read_annotation_file`: with `header=True` the
first row is consumed by `next(linereader)` (StopIteration on an empty
file); otherwise the header is the empty list. -/
def headerSplit (header : Bool) (rows : List (List String)) :
    Except PyError (List String × List (List String)) :=
  if header then
    match rows with
    | [] => Except.error PyError.stopIteration
    | h :: t => Except.ok (h, t)
  else Except.ok ([], rows)

theorem headerSplit_false (rows : List (List String)) :
    headerSplit false rows = Except.ok ([], rows) := rfl

theorem headerSplit_true_cons (h : List String) (t : List (List String)) :
    headerSplit true (h :: t) = Except.ok (h, t) := rfl

/-- Embedding of `read_annotation_file` (multitrack.py, lines 730-784).
On a missing path it returns `(None, None)` after printing a warning; on
an existing file it consumes the header via `headerSplit` and then runs
`annotationLoop` on the remaining rows. -/
def read_annotation_file (fs : FS) (fpath : String) (num_cols : Option Nat)
    (header : Bool) : Except PyError (Option Ann × Option (List String)) :=
  match fs fpath with
  | some (FileContent.text rows) =>
      match headerSplit header rows with
      | Except.error e => Except.error e
      | Except.ok hb =>
          match annotationLoop num_cols [] hb.2 with
          | Except.error e => Except.error e
          | Except.ok ann => Except.ok (some ann, some hb.1)
  | some _ => Except.error PyError.valueError
  | none => Except.ok (none, none)

/-- The annotation loop is the fallible map of per-line parsing. -/
theorem annotationLoop_eq_mapExcept (nc : Option Nat) :
    ∀ (l : List (List String)) (acc : Ann),
      annotationLoop nc acc l =
        (mapExcept (fun line => mapExcept parse_float_field (py_truncate nc line)) l).map
          (fun qs => acc ++ qs) := by
  intro l
  induction l with
  | nil => intro acc; simp [annotationLoop, mapExcept, Except.map]
  | cons x xs ih =>
      intro acc
      cases hx : mapExcept parse_float_field (py_truncate nc x) with
      | error e => simp [annotationLoop, mapExcept, hx, Except.map]
      | ok q =>
          simp only [annotationLoop, mapExcept, hx]
          rw [ih (acc ++ [q])]
          cases hxs : mapExcept (fun line =>
              mapExcept parse_float_field (py_truncate nc line)) xs <;>
            simp [Except.map]

/-- Filesystem for the C3 counterexample: one existing two-column file. -/
def fsC3 : FS := fun p =>
  if p = "f.csv" then some (FileContent.text [["1", "2"]]) else none

/-- The truncation described by the claim wording for C3: whenever
`num_cols` is specified, keep only the first `num_cols` columns.
Written from the claim, to be compared with the code. -/
def claim_truncate (nc : Option Nat) (rows : Ann) : Ann :=
  match nc with
  | some n => rows.map (fun r => r.take n)
  | none => rows

/-- Claim C3 counterexample: with `num_cols = 0` the claim predicts rows
truncated to their first 0 columns (empty rows), but Python treats 0 as
falsy in `if num_cols:` so the code returns the rows untruncated. -/
theorem read_annotation_file_num_cols_zero_counterexample :
    read_annotation_file fsC3 "f.csv" (some 0) false =
      Except.ok (some [[decOfInt 1, decOfInt 2]], some []) ∧
    claim_truncate (some 0) [[decOfInt 1, decOfInt 2]] = [[]] ∧
    [[decOfInt 1, decOfInt 2]] ≠ ([[]] : Ann) := by
  refine ⟨by decide, by decide, by decide⟩

/-- Claim C3 (amended): on every path that does not exist,
read_annotation_file returns (None, None) for any header flag and any
num_cols, raising nothing; on an existing well-formed file it returns
the data rows with each kept field parsed as a float, truncated to the
first num_cols columns when num_cols is specified and nonzero (the value
0 is falsy in Python, so num_cols = 0 performs no truncation), together
with the header row when header=True and an empty header otherwise. -/
theorem read_annotation_file_spec :
    (∀ (fs : FS) (p : String) (nc : Option Nat) (hdr : Bool),
       fs p = none → read_annotation_file fs p nc hdr = Except.ok (none, none)) ∧
    (∀ (fs : FS) (p : String) (nc : Option Nat) (rows : List (List String)) (qs : Ann),
       fs p = some (FileContent.text rows) →
       mapExcept (fun line => mapExcept parse_float_field (py_truncate nc line)) rows
         = Except.ok qs →
       read_annotation_file fs p nc false = Except.ok (some qs, some [])) ∧
    (∀ (fs : FS) (p : String) (nc : Option Nat) (h : List String)
       (t : List (List String)) (qs : Ann),
       fs p = some (FileContent.text (h :: t)) →
       mapExcept (fun line => mapExcept parse_float_field (py_truncate nc line)) t
         = Except.ok qs →
       read_annotation_file fs p nc true = Except.ok (some qs, some h)) := by
  refine ⟨?_, ?_, ?_⟩
  · intro fs p nc hdr hfs
    simp [read_annotation_file, hfs]
  · intro fs p nc rows qs hfs hmap
    simp only [read_annotation_file, hfs, headerSplit_false]
    rw [annotationLoop_eq_mapExcept, hmap]
    simp [Except.map]
  · intro fs p nc h t qs hfs hmap
    simp only [read_annotation_file, hfs, headerSplit_true_cons]
    rw [annotationLoop_eq_mapExcept, hmap]
    simp [Except.map]

/-- Filesystem for the C3 witness: a truncation example whose third
column is not numeric (showing truncation happens before parsing), and a
file with a header row. -/
def fsC3w : FS := fun p =>
  if p = "g.csv" then some (FileContent.text [["0.0", "100.5", "x"]])
  else if p = "h.csv" then some (FileContent.text [["time", "conf"], ["1"]])
  else none

theorem read_annotation_file_spec_witness :
    (fsC3w "missing.csv" = none ∧
     read_annotation_file fsC3w "missing.csv" (some 2) true = Except.ok (none, none)) ∧
    read_annotation_file fsC3w "g.csv" (some 2) false =
      Except.ok (some [[⟨0, 0⟩, ⟨1005, 1⟩]], some []) ∧
    read_annotation_file fsC3w "h.csv" (some 2) true =
      Except.ok (some [[⟨1, 0⟩]], some ["time", "conf"]) := by
  refine ⟨⟨rfl, read_annotation_file_spec.1 fsC3w "missing.csv" (some 2) true rfl⟩,
    read_annotation_file_spec.2.1 fsC3w "g.csv" (some 2) [["0.0", "100.5", "x"]]
      [[⟨0, 0⟩, ⟨1005, 1⟩]] rfl (by decide),
    read_annotation_file_spec.2.2 fsC3w "h.csv" (some 2) ["time", "conf"] [["1"]]
      [[⟨1, 0⟩]] rfl (by decide)⟩

/-- A Python value as `get_dict_leaves` sees it: a leaf scalar (int or
string), a list, or a nested dict (insertion-ordered association list).
In the Python 2 idiom of this module, `hasattr(x, "__iter__")` holds for
lists but not for strings or ints. -/
inductive PyObj where
  | int : Int → PyObj
  | str : String → PyObj
  | pylist : List PyObj → PyObj
  | dict : List (String × PyObj) → PyObj

/-- The dict branch of `get_dict_leaves` (multitrack.py, lines 678-708):
walk the entries in order; recurse into dict values, expand list values
into their elements, and keep any other value as a leaf. -/
def dictLeavesAux : List (String × PyObj) → List PyObj
  | [] => []
  | (_, PyObj.dict es2) :: rest => dictLeavesAux es2 ++ dictLeavesAux rest
  | (_, PyObj.pylist xs) :: rest => xs ++ dictLeavesAux rest
  | (_, v) :: rest => v :: dictLeavesAux rest

/-- Iterating a non-dict value at the top of `get_dict_leaves`
(`for val in dictionary` in the else branch): lists yield their
elements, strings their characters, anything else raises TypeError. -/
def pyIterTop : PyObj → Except PyError (List PyObj)
  | PyObj.pylist xs => Except.ok xs
  | PyObj.str s => Except.ok (s.toList.map (fun c => PyObj.str (String.mk [c])))
  | _ => Except.error PyError.typeError

/-- Embedding of `get_dict_leaves`.  The Python function returns
`set(vals)`; here the collected list is returned and set facts are
stated up to membership (`setEqv`), since a Python set is characterised
by its membership. -/
def get_dict_leaves : PyObj → Except PyError (List PyObj)
  | PyObj.dict es => Except.ok (dictLeavesAux es)
  | d => pyIterTop d

/-- Two lists denote the same Python set. -/
def setEqv (l1 l2 : List PyObj) : Prop := ∀ x : PyObj, x ∈ l1 ↔ x ∈ l2

/-- Specification-side description of the leaves of a nested dict,
written from the claim wording for C8: every non-mapping value is
collected, iterable (list) leaf values expand into their elements, and
dict values are walked recursively. -/
inductive IsLeaf : List (String × PyObj) → PyObj → Prop where
  | ofInt : ∀ (es : List (String × PyObj)) (k : String) (n : Int),
      (k, PyObj.int n) ∈ es → IsLeaf es (PyObj.int n)
  | ofStr : ∀ (es : List (String × PyObj)) (k : String) (s : String),
      (k, PyObj.str s) ∈ es → IsLeaf es (PyObj.str s)
  | ofElem : ∀ (es : List (String × PyObj)) (k : String) (xs : List PyObj) (x : PyObj),
      (k, PyObj.pylist xs) ∈ es → x ∈ xs → IsLeaf es x
  | ofNested : ∀ (es : List (String × PyObj)) (k : String)
      (es2 : List (String × PyObj)) (x : PyObj),
      (k, PyObj.dict es2) ∈ es → IsLeaf es2 x → IsLeaf es x

/-- Weakening: a leaf of the tail is a leaf of the whole dict. -/
theorem isLeaf_cons (p : String × PyObj) (rest : List (String × PyObj)) (x : PyObj)
    (h : IsLeaf rest x) : IsLeaf (p :: rest) x := by
  cases h with
  | ofInt es k n hm => exact IsLeaf.ofInt _ k n (List.mem_cons_of_mem p hm)
  | ofStr es k s hm => exact IsLeaf.ofStr _ k s (List.mem_cons_of_mem p hm)
  | ofElem es k xs x hm hx => exact IsLeaf.ofElem _ k xs x (List.mem_cons_of_mem p hm) hx
  | ofNested es k es2 x hm hx => exact IsLeaf.ofNested _ k es2 x (List.mem_cons_of_mem p hm) hx

/-- The list collected by `dictLeavesAux` has exactly the leaves
described by `IsLeaf`. -/
theorem mem_dictLeavesAux (es : List (String × PyObj)) (x : PyObj) :
    x ∈ dictLeavesAux es ↔ IsLeaf es x := by
  induction es using dictLeavesAux.induct with
  | case1 =>
      simp only [dictLeavesAux, List.not_mem_nil, false_iff]
      intro h
      cases h <;> simp_all
  | case2 k es2 rest ih1 ih2 =>
      simp only [dictLeavesAux, List.mem_append, ih1, ih2]
      constructor
      · rintro (h | h)
        · exact IsLeaf.ofNested _ k es2 x (List.mem_cons_self _ _) h
        · exact isLeaf_cons _ _ _ h
      · intro h
        cases h with
        | ofInt es k2 n hm =>
            rcases List.mem_cons.mp hm with heq | hm2
            · simp_all
            · exact Or.inr (IsLeaf.ofInt _ k2 n hm2)
        | ofStr es k2 s hm =>
            rcases List.mem_cons.mp hm with heq | hm2
            · simp_all
            · exact Or.inr (IsLeaf.ofStr _ k2 s hm2)
        | ofElem es k2 xs x hm hx =>
            rcases List.mem_cons.mp hm with heq | hm2
            · simp_all
            · exact Or.inr (IsLeaf.ofElem _ k2 xs x hm2 hx)
        | ofNested es k2 es3 x hm hx =>
            rcases List.mem_cons.mp hm with heq | hm2
            · have h1 : es3 = es2 := by simp_all
              subst h1
              exact Or.inl hx
            · exact Or.inr (IsLeaf.ofNested _ k2 es3 x hm2 hx)
  | case3 k xs rest ih =>
      simp only [dictLeavesAux, List.mem_append, ih]
      constructor
      · rintro (h | h)
        · exact IsLeaf.ofElem _ k xs x (List.mem_cons_self _ _) h
        · exact isLeaf_cons _ _ _ h
      · intro h
        cases h with
        | ofInt es k2 n hm =>
            rcases List.mem_cons.mp hm with heq | hm2
            · simp_all
            · exact Or.inr (IsLeaf.ofInt _ k2 n hm2)
        | ofStr es k2 s hm =>
            rcases List.mem_cons.mp hm with heq | hm2
            · simp_all
            · exact Or.inr (IsLeaf.ofStr _ k2 s hm2)
        | ofElem es k2 xs2 x hm hx =>
            rcases List.mem_cons.mp hm with heq | hm2
            · have h1 : xs2 = xs := by simp_all
              subst h1
              exact Or.inl hx
            · exact Or.inr (IsLeaf.ofElem _ k2 xs2 x hm2 hx)
        | ofNested es k2 es3 x hm hx =>
            rcases List.mem_cons.mp hm with heq | hm2
            · simp_all
            · exact Or.inr (IsLeaf.ofNested _ k2 es3 x hm2 hx)
  | case4 k v rest hv1 hv2 ih =>
      simp only [dictLeavesAux, List.mem_cons, ih]
      constructor
      · rintro (rfl | h)
        · cases hx : x with
          | int n => exact IsLeaf.ofInt _ k n (by simp [hx.symm])
          | str s => exact IsLeaf.ofStr _ k s (by simp [hx.symm])
          | pylist xs => exact (hv2 xs hx).elim
          | dict es2 => exact (hv1 es2 hx).elim
        · exact isLeaf_cons _ _ _ h
      · intro h
        cases h with
        | ofInt es k2 n hm =>
            rcases List.mem_cons.mp hm with heq | hm2
            · exact Or.inl (by simp_all)
            · exact Or.inr (IsLeaf.ofInt _ k2 n hm2)
        | ofStr es k2 s hm =>
            rcases List.mem_cons.mp hm with heq | hm2
            · exact Or.inl (by simp_all)
            · exact Or.inr (IsLeaf.ofStr _ k2 s hm2)
        | ofElem es k2 xs2 x hm hx =>
            rcases List.mem_cons.mp hm with heq | hm2
            · exact absurd (Prod.mk.injEq .. ▸ heq).2.symm (hv2 xs2)
            · exact Or.inr (IsLeaf.ofElem _ k2 xs2 x hm2 hx)
        | ofNested es k2 es3 x hm hx =>
            rcases List.mem_cons.mp hm with heq | hm2
            · exact absurd (Prod.mk.injEq .. ▸ heq).2.symm (hv1 es3)
            · exact Or.inr (IsLeaf.ofNested _ k2 es3 x hm2 hx)

/-- Claim C8: for every nested dictionary, get_dict_leaves collects
exactly the leaves (non-mapping values, with list values expanded into
their elements) into a flat set; in particular, on the dict
a maps-to (b maps-to 1, c maps-to 2), d maps-to 3 it returns the set
with elements 1, 2, 3. -/
theorem get_dict_leaves_spec :
    (∀ es : List (String × PyObj), ∃ leaves : List PyObj,
       get_dict_leaves (PyObj.dict es) = Except.ok leaves ∧
       ∀ x : PyObj, x ∈ leaves ↔ IsLeaf es x) ∧
    (∃ leaves : List PyObj,
       get_dict_leaves (PyObj.dict
         [("a", PyObj.dict [("b", PyObj.int 1), ("c", PyObj.int 2)]),
          ("d", PyObj.int 3)]) = Except.ok leaves ∧
       setEqv leaves [PyObj.int 1, PyObj.int 2, PyObj.int 3]) := by
  constructor
  · intro es
    exact ⟨dictLeavesAux es, rfl, fun x => mem_dictLeavesAux es x⟩
  · refine ⟨[PyObj.int 1, PyObj.int 2, PyObj.int 3], ?_, fun x => Iff.rfl⟩
    simp [get_dict_leaves, dictLeavesAux]

/-- The f0-type lookup table (`INST_F0_TYPE`) and mixing-coefficient
table (`MIXING_COEFFICIENTS`) together with the three configurable root
paths and the filesystem: the module-level configuration of
multitrack.py. `audioPath = none` models a falsy `AUDIO_PATH`. -/
structure Env where
  metadataPath : String
  annotPath : String
  audioPath : Option String
  mixingCoefficients : List (String × List (Int × Dec))
  instF0Type : List (String × String)
  fs : FS

/-- Embedding of `get_f0_type`: table lookup with "?" for unknown. -/
def get_f0_type (env : Env) (instrument : String) : String :=
  match alookup env.instF0Type instrument with
  | some t => t
  | none => "?"

/-- Embedding of `get_duration`: the sox oracle reads the duration off
an audio file; anything else fails inside sox. -/
def get_duration (fs : FS) (p : String) : Except PyError Dec :=
  match fs p with
  | some (FileContent.audio d) => Except.ok d
  | _ => Except.error PyError.soxError

/-- Python `os.path.exists`. -/
def pyExists (fs : FS) (p : String) : Bool := (fs p).isSome

/-- The full attribute set (`__dict__`) of a Track instance, in the
order `Track.__init__` assigns them (multitrack.py, lines 567-587).
`pitch_annotation_cache` is the private `_pitch_annotation` field and
`pitch_path` the private `_pitch_path` field. -/
structure Track where
  instrument : String
  f0_type : String
  file_path : Option String
  component : String
  ranking : Option Int
  stem_idx : Option Int
  raw_idx : Option Int
  mixing_coefficient : Option Dec
  duration : Option Dec
  mix_path : Option String
  pitch_annotation_cache : Option Ann
  pitch_path : Option String
deriving DecidableEq, Repr, Inhabited

/-- Embedding of `Track.__init__`: formats the indices (which can raise
ValueError), and computes the duration when the audio file exists. -/
def Track.init (env : Env) (instrument : String) (file_path : Option String)
    (stem_idx : PyIndex) (mix_path : Option String) (pitch_path : Option String)
    (raw_idx : PyIndex) (component : String) (ranking : Option Int)
    (mix_coeff : Option Dec) : Except PyError Track :=
  match format_index stem_idx with
  | Except.error e => Except.error e
  | Except.ok sIdx =>
      match format_index raw_idx with
      | Except.error e => Except.error e
      | Except.ok rIdx =>
          match (match file_path with
                 | some fp =>
                     if pyExists env.fs fp then
                       match get_duration env.fs fp with
                       | Except.error e => Except.error e
                       | Except.ok d => Except.ok (some d)
                     else Except.ok none
                 | none => Except.ok none :
                 Except PyError (Option Dec)) with
          | Except.error e => Except.error e
          | Except.ok dur =>
              Except.ok
                { instrument := instrument
                  f0_type := get_f0_type env instrument
                  file_path := file_path
                  component := component
                  ranking := ranking
                  stem_idx := sIdx
                  raw_idx := rIdx
                  mixing_coefficient := mix_coeff
                  duration := dur
                  mix_path := mix_path
                  pitch_annotation_cache := none
                  pitch_path := pitch_path }

/-- Embedding of `Track.__eq__`: `self.__dict__ == other.__dict__`,
i.e. equality of every attribute, the private cache fields included. -/
def trackEq (a b : Track) : Bool :=
  decide (a.instrument = b.instrument) &&
  decide (a.f0_type = b.f0_type) &&
  decide (a.file_path = b.file_path) &&
  decide (a.component = b.component) &&
  decide (a.ranking = b.ranking) &&
  decide (a.stem_idx = b.stem_idx) &&
  decide (a.raw_idx = b.raw_idx) &&
  decide (a.mixing_coefficient = b.mixing_coefficient) &&
  decide (a.duration = b.duration) &&
  decide (a.mix_path = b.mix_path) &&
  decide (a.pitch_annotation_cache = b.pitch_annotation_cache) &&
  decide (a.pitch_path = b.pitch_path)

/-- Embedding of `Track.__hash__` (multitrack.py, lines 605-612): the
hash is computed from this 7-tuple of attributes only.  Equal tuples
give equal Python hashes, so the tuple is the faithful abstraction of
what the hash depends on. -/
def trackHashKey (t : Track) :
    String × Option String × String × Option Int × Option Int ×
      Option String × Option String :=
  (t.instrument, t.file_path, t.component, t.stem_idx, t.raw_idx,
   t.mix_path, t.pitch_path)

/-- `trackEq` is structural equality over the whole attribute set. -/
theorem trackEq_iff (a b : Track) : trackEq a b = true ↔ a = b := by
  cases a
  cases b
  simp only [trackEq, Bool.and_eq_true, decide_eq_true_eq, Track.mk.injEq]
  tauto

/-- A stem Track as built during parsing, pitch cache not populated. -/
def t9a : Track :=
  { instrument := "clarinet"
    f0_type := "m"
    file_path := none
    component := "melody"
    ranking := some 1
    stem_idx := some 1
    raw_idx := none
    mixing_coefficient := some ⟨1, 0⟩
    duration := none
    mix_path := none
    pitch_annotation_cache := none
    pitch_path := some "P/AAA_BBB_STEM_01.csv" }

/-- The same Track after its pitch-annotation cache was populated. -/
def t9b : Track := { t9a with pitch_annotation_cache := some [[⟨0, 0⟩, ⟨2205, 1⟩]] }

/-- Claim C9: Track equality is `__dict__` equality, i.e. two Tracks are
equal under `==` iff every attribute, the private lazy-cache fields
included, is equal; consequently `t9a` and `t9b`, identical except that
`t9b` has its pitch-annotation cache populated, compare unequal. -/
theorem track_structural_equality :
    (∀ a b : Track, trackEq a b = true ↔ a = b) ∧
    t9a.instrument = t9b.instrument ∧
    t9a.f0_type = t9b.f0_type ∧
    t9a.file_path = t9b.file_path ∧
    t9a.component = t9b.component ∧
    t9a.ranking = t9b.ranking ∧
    t9a.stem_idx = t9b.stem_idx ∧
    t9a.raw_idx = t9b.raw_idx ∧
    t9a.mixing_coefficient = t9b.mixing_coefficient ∧
    t9a.duration = t9b.duration ∧
    t9a.mix_path = t9b.mix_path ∧
    t9a.pitch_path = t9b.pitch_path ∧
    t9a.pitch_annotation_cache = none ∧
    t9b.pitch_annotation_cache ≠ none ∧
    trackEq t9a t9b = false := by
  refine ⟨trackEq_iff, ?_⟩
  repeat constructor
  all_goals decide

/-- Tracks for the C10 hash independence statement. -/
def t10a : Track :=
  { instrument := "flute"
    f0_type := "m"
    file_path := some "A/B_STEM_02.wav"
    component := ""
    ranking := some 1
    stem_idx := some 2
    raw_idx := none
    mixing_coefficient := some ⟨12, 1⟩
    duration := some ⟨30, 0⟩
    mix_path := some "A/B_MIX.wav"
    pitch_annotation_cache := none
    pitch_path := some "P/B_STEM_02.csv" }

/-- `t10a` with different ranking, mixing coefficient, duration and a
populated pitch-annotation cache; the seven hashed attributes agree. -/
def t10b : Track :=
  { t10a with
    ranking := none
    mixing_coefficient := none
    duration := none
    pitch_annotation_cache := some [[⟨0, 0⟩]] }

/-- Claim C10: the Track hash is computed only from the 7-tuple
(instrument, file_path, component, stem_idx, raw_idx, mix_path,
_pitch_path); Tracks equal under `==` have equal hash keys, and `t10a`
and `t10b`, which differ only in ranking, mixing_coefficient, duration
and the populated pitch-annotation cache, share the hash key even though
they compare unequal. -/
theorem track_hash_key_spec :
    (∀ a b : Track, trackEq a b = true → trackHashKey a = trackHashKey b) ∧
    trackHashKey t10a = trackHashKey t10b ∧
    trackEq t10a t10b = false ∧
    t10a ≠ t10b := by
  refine ⟨?_, rfl, by decide, by decide⟩
  intro a b h
  rw [(trackEq_iff a b).mp h]

theorem track_hash_key_spec_witness :
    trackEq t9a t9a = true ∧ trackHashKey t9a = trackHashKey t9a :=
  ⟨by decide, track_hash_key_spec.1 t9a t9a (by decide)⟩

/-- The line loop of `_get_melody_rankings`: the stem index is the last
underscore-delimited token of the first field, up to the first dot; the
rank is the second field; short lines and non-numeric fields raise. -/
def rankingLoop : List (Int × Int) → List (List String) → Except PyError (List (Int × Int))
  | d, [] => Except.ok d
  | d, line :: rest =>
      match line.get? 0 with
      | none => Except.error PyError.indexError
      | some f0 =>
          match line.get? 1 with
          | none => Except.error PyError.indexError
          | some f1 =>
              match pyInt ((pySplit ((pySplit f0 '_').getLastD "") '.').headD "") with
              | none => Except.error PyError.valueError
              | some stem_idx =>
                  match pyInt f1 with
                  | none => Except.error PyError.valueError
                  | some ranking => rankingLoop (dictInsert d stem_idx ranking) rest

/-- Embedding of `MultiTrack._get_melody_rankings` (lines 345-362):
empty dict when the ranking file does not exist. -/
def get_melody_rankings (fs : FS) (fpath : String) : Except PyError (List (Int × Int)) :=
  match fs fpath with
  | some (FileContent.text rows) => rankingLoop [] rows
  | some _ => Except.error PyError.valueError
  | none => Except.ok []

/-- The per-entry audio file path of `_parse_metadata`: only resolved
when `AUDIO_PATH` is configured (the directory is set exactly then). -/
def stem_file_path (audioPath dir_path : Option String) (filename : String) :
    Option String :=
  match audioPath, dir_path with
  | some _, some d => some (pjoin d filename)
  | _, _ => none

theorem stem_file_path_none (dir_path : Option String) (filename : String) :
    stem_file_path none dir_path filename = none := rfl

/-- The inner raw-source loop of `_parse_metadata` (lines 325-341). -/
def rawLoop (env : Env) (mix_path raw_dir : Option String)
    (stem_idx : Int) (ranking : Option Int) :
    List (Int × List (Int × Track)) → List (String × RawMeta) →
    Except PyError (List (Int × List (Int × Track)))
  | ra, [] => Except.ok ra
  | ra, (j, rm) :: rest =>
      match pyInt (pyDrop j 1) with
      | none => Except.error PyError.valueError
      | some raw_idx =>
          let file_path := stem_file_path env.audioPath raw_dir rm.filename
          match Track.init env rm.instrument file_path (PyIndex.int stem_idx)
              mix_path none (PyIndex.int raw_idx) "" ranking none with
          | Except.error e => Except.error e
          | Except.ok track =>
              let inner := (alookup ra stem_idx).getD []
              rawLoop env mix_path raw_dir stem_idx ranking
                (dictInsert ra stem_idx (dictInsert inner raw_idx track)) rest

/-- The outer stem loop of `_parse_metadata` (lines 294-341): parse the
stem key `S<n>`, look up its ranking and mixing coefficient, build the
stem Track, then walk the nested raw entries. -/
def stemLoop (env : Env) (track_id : String)
    (mix_path stem_dir raw_dir : Option String) (pitch_dir : String)
    (melody_rankings : List (Int × Int)) (mix_coeffs : List (Int × Dec)) :
    List (Int × Track) × List (Int × List (Int × Track)) →
    List (String × StemMeta) →
    Except PyError (List (Int × Track) × List (Int × List (Int × Track)))
  | st, [] => Except.ok st
  | st, (k, sm) :: rest =>
      match pyInt (pyDrop k 1) with
      | none => Except.error PyError.valueError
      | some stem_idx =>
          let ranking := alookup melody_rankings stem_idx
          let file_path := stem_file_path env.audioPath stem_dir sm.filename
          let pitch_path :=
            pjoin pitch_dir (track_id ++ "_STEM_" ++ pyDrop k 1 ++ ".csv")
          match alookup mix_coeffs stem_idx with
          | none => Except.error PyError.keyError
          | some coeff =>
              match Track.init env sm.instrument file_path (PyIndex.int stem_idx)
                  mix_path (some pitch_path) PyIndex.pynone sm.component ranking
                  (some coeff) with
              | Except.error e => Except.error e
              | Except.ok track =>
                  match rawLoop env mix_path raw_dir stem_idx ranking st.2 sm.raw with
                  | Except.error e => Except.error e
                  | Except.ok ra2 =>
                      stemLoop env track_id mix_path stem_dir raw_dir pitch_dir
                        melody_rankings mix_coeffs
                        (dictInsert st.1 stem_idx track, ra2) rest

/-- Embedding of `MultiTrack._parse_metadata` (lines 278-343). -/
def parse_metadata (env : Env) (track_id : String) (md : Metadata)
    (melody_rankings : List (Int × Int)) (mix_coeffs : List (Int × Dec))
    (mix_path stem_dir raw_dir : Option String) (pitch_dir : String) :
    Except PyError (List (Int × Track) × List (Int × List (Int × Track))) :=
  stemLoop env track_id mix_path stem_dir raw_dir pitch_dir melody_rankings
    mix_coeffs ([], []) md.stems

/-- Embedding of `MultiTrack._get_predominant_stem` (lines 364-385):
first ranking entry with rank 1, looked up among the stems (a rank-1
index with no stem raises KeyError). -/
def get_predominant_stem (melody_rankings : List (Int × Int))
    (stems : List (Int × Track)) : Except PyError (Option Track) :=
  if melody_rankings.length > 0 then
    match (melody_rankings.filter (fun p => decide (p.2 = 1))).map (fun p => p.1) with
    | [] => Except.ok none
    | k :: _ =>
        match alookup stems k with
        | some t => Except.ok (some t)
        | none => Except.error PyError.keyError
  else Except.ok none

/-- The `enumerate(header)` loop of `_get_activation_annotations`:
non-"time" column labels are normalised with `format_index` and mapped
to their column position. -/
def activationIdxLoop : List (Int × Nat) → List (Nat × String) →
    Except PyError (List (Int × Nat))
  | d, [] => Except.ok d
  | d, (i, s) :: rest =>
      if s = "time" then activationIdxLoop d rest
      else
        match format_index_str s with
        | Except.error e => Except.error e
        | Except.ok si => activationIdxLoop (dictInsert d si i) rest

/-- Embedding of `MultiTrack._get_activation_annotations` (lines
387-410).  When the activation file does not exist,
`read_annotation_file` returns `(None, None)` and the subsequent
`enumerate(None)` raises TypeError. -/
def get_activation_annotations (fs : FS) (annotation_dir track_id : String) :
    Except PyError (Option Ann × List (Int × Nat)) :=
  match read_annotation_file fs
      (pjoin annotation_dir (track_id ++ "_ACTIVATION_CONF.lab")) none true with
  | Except.error e => Except.error e
  | Except.ok (activations, some hdr) =>
      match activationIdxLoop [] hdr.enum with
      | Except.error e => Except.error e
      | Except.ok idx => Except.ok (activations, idx)
  | Except.ok (_, none) => Except.error PyError.typeError

/-- Insert a string into a sorted list (for the Python `sorted`). -/
def insertStr (s : String) : List String → List String
  | [] => [s]
  | x :: xs => if s ≤ x then s :: x :: xs else x :: insertStr s xs

/-- Python `sorted` on a list of strings. -/
def sortStrings : List String → List String
  | [] => []
  | x :: xs => insertStr x (sortStrings xs)

/-- `get_dict_leaves(self.raw_audio)`: the distinct Track values of the
two-level raw_audio dict (the Python result is a set of Tracks). -/
def rawLeaves (ra : List (Int × List (Int × Track))) : List Track :=
  ((ra.map (fun p => p.2)).flatten.map (fun p => p.2)).dedup

/-- Embedding of the `_YESNO` mapping applied to a metadata field:
anything other than "yes" or "no" raises KeyError. -/
def pyYesNo : String → Except PyError Bool
  | "yes" => Except.ok true
  | "no" => Except.ok false
  | _ => Except.error PyError.keyError

/-- The attribute set of a MultiTrack instance, as `MultiTrack.__init__`
(lines 131-224) assigns it.  The three `melody*_annotation_cache` fields
are the private `_melody*_annotation` lazy caches, and `pitch_dir_path`
is the private `_pitch_path` directory. -/
structure MultiTrack where
  artist : String
  title : String
  track_id : String
  meta_path : String
  annotation_dir : String
  pitch_dir_path : String
  audio_path : Option String
  stem_dir_path : Option String
  raw_dir_path : Option String
  mix_path : Option String
  stem_fmt : String
  raw_fmt : String
  metadata : Metadata
  melody_rankings_fpath : String
  melody_rankings : List (Int × Int)
  mixing_coefficients : List (Int × Dec)
  stems : List (Int × Track)
  raw_audio : List (Int × List (Int × Track))
  stem_instruments : List String
  raw_instruments : List String
  duration : Option Dec
  is_excerpt : Bool
  has_bleed : Bool
  is_instrumental : Bool
  origin : String
  genre : String
  metadata_version : String
  has_melody : Bool
  melody1_annotation_cache : Option Ann
  melody2_annotation_cache : Option Ann
  melody3_annotation_cache : Option Ann
  predominant_stem : Option Track
  stem_activations : Option Ann
  stem_activations_idx : List (Int × Nat)
deriving DecidableEq, Repr, Inhabited

/-- The mix-duration step of `MultiTrack.__init__` (lines 201-205):
duration of the mix file when it exists, otherwise a printed warning and
an absent duration. -/
def mix_duration (fs : FS) (mix_path : Option String) :
    Except PyError (Option Dec) :=
  match mix_path with
  | some mp =>
      if pyExists fs mp then
        match get_duration fs mp with
        | Except.error e => Except.error e
        | Except.ok d => Except.ok (some d)
      else Except.ok none
  | none => Except.ok none

/-- Embedding of `MultiTrack.__init__` (multitrack.py, lines 131-224),
step by step in the order of the source: split the track id, check for
the metadata file (IOError when missing), resolve the annotation and
audio paths, load the metadata, read the ranking file, look up the
mixing coefficients (KeyError when the track id is missing from the
table), parse the stems and raw sources, compute the mix duration, copy
the metadata flags, and finally compute the predominant stem and the
activation annotations. -/
def mtInit (env : Env) (track_id : String) : Except PyError MultiTrack :=
  let parts := pySplit track_id '_'
  match parts.get? 1 with
  | none => Except.error PyError.indexError
  | some title =>
      let artist := parts.headD ""
      let meta_path := pjoin env.metadataPath (track_id ++ "_METADATA.yaml")
      if pyExists env.fs meta_path then
        let annotation_dir := pjoin env.annotPath (track_id ++ "_ANNOTATIONS")
        let pitch_dir := pjoin annotation_dir (track_id ++ "_PITCH")
        let audio_path := env.audioPath.map (fun ap => pjoin ap track_id)
        let stem_dir := audio_path.map (fun ad => pjoin ad (track_id ++ "_STEMS"))
        let raw_dir := audio_path.map (fun ad => pjoin ad (track_id ++ "_RAW"))
        let mix_path := audio_path.map (fun ad => pjoin ad (track_id ++ "_MIX.wav"))
        match env.fs meta_path with
        | some (FileContent.yamlMeta md) =>
            let rank_fpath := pjoin annotation_dir (track_id ++ "_RANKING.txt")
            match get_melody_rankings env.fs rank_fpath with
            | Except.error e => Except.error e
            | Except.ok melody_rankings =>
                match alookup env.mixingCoefficients track_id with
                | none => Except.error PyError.keyError
                | some mix_coeffs =>
                    match parse_metadata env track_id md melody_rankings
                        mix_coeffs mix_path stem_dir raw_dir pitch_dir with
                    | Except.error e => Except.error e
                    | Except.ok sr =>
                        match mix_duration env.fs mix_path with
                        | Except.error e => Except.error e
                        | Except.ok dur =>
                            match pyYesNo md.excerpt with
                            | Except.error e => Except.error e
                            | Except.ok is_excerpt =>
                                match pyYesNo md.has_bleed with
                                | Except.error e => Except.error e
                                | Except.ok has_bleed =>
                                    match pyYesNo md.instrumental with
                                    | Except.error e => Except.error e
                                    | Except.ok is_instrumental =>
                                        match get_predominant_stem melody_rankings sr.1 with
                                        | Except.error e => Except.error e
                                        | Except.ok predominant =>
                                            match get_activation_annotations env.fs
                                                annotation_dir track_id with
                                            | Except.error e => Except.error e
                                            | Except.ok activ =>
                                                Except.ok
                                                  { artist := artist
                                                    title := title
                                                    track_id := track_id
                                                    meta_path := meta_path
                                                    annotation_dir := annotation_dir
                                                    pitch_dir_path := pitch_dir
                                                    audio_path := audio_path
                                                    stem_dir_path := stem_dir
                                                    raw_dir_path := raw_dir
                                                    mix_path := mix_path
                                                    stem_fmt := track_id ++ "_STEM_%s.wav"
                                                    raw_fmt := track_id ++ "_RAW_%s_%s.wav"
                                                    metadata := md
                                                    melody_rankings_fpath := rank_fpath
                                                    melody_rankings := melody_rankings
                                                    mixing_coefficients := mix_coeffs
                                                    stems := sr.1
                                                    raw_audio := sr.2
                                                    stem_instruments :=
                                                      sortStrings (sr.1.map (fun p => p.2.instrument))
                                                    raw_instruments :=
                                                      sortStrings ((rawLeaves sr.2).map (fun t => t.instrument))
                                                    duration := dur
                                                    is_excerpt := is_excerpt
                                                    has_bleed := has_bleed
                                                    is_instrumental := is_instrumental
                                                    origin := md.origin
                                                    genre := md.genre
                                                    metadata_version := md.version
                                                    has_melody :=
                                                      pyExists env.fs
                                                        (pjoin annotation_dir (track_id ++ "_MELODY1.csv"))
                                                    melody1_annotation_cache := none
                                                    melody2_annotation_cache := none
                                                    melody3_annotation_cache := none
                                                    predominant_stem := predominant
                                                    stem_activations := activ.1
                                                    stem_activations_idx := activ.2 }
        | _ => Except.error PyError.yamlError
      else Except.error PyError.ioError

/-- Metadata of the test track "AAA_BBB": one stem S01 with one raw
source R01. -/
def mdW : Metadata :=
  { excerpt := "no"
    has_bleed := "yes"
    instrumental := "no"
    origin := "Dolan Studios"
    genre := "Singer/Songwriter"
    version := "1.2"
    stems := [("S01",
      { instrument := "clarinet"
        component := "melody"
        filename := "AAA_BBB_STEM_01.wav"
        raw := [("R01",
          { instrument := "clarinet"
            filename := "AAA_BBB_RAW_01_01.wav" })] })] }

/-- Environment with no audio root configured: the metadata file and the
activation-confidence file exist, nothing else. -/
def envW5 : Env :=
  { metadataPath := "Metadata"
    annotPath := "Annotations"
    audioPath := none
    mixingCoefficients := [("AAA_BBB", [(1, ⟨1, 0⟩)])]
    instF0Type := [("clarinet", "m")]
    fs := fun p =>
      if p = "Metadata/AAA_BBB_METADATA.yaml" then
        some (FileContent.yamlMeta mdW)
      else if p = "Annotations/AAA_BBB_ANNOTATIONS/AAA_BBB_ACTIVATION_CONF.lab" then
        some (FileContent.text [["time", "S01"], ["0.0", "1.0"]])
      else none }

/-- The MultiTrack built from `envW5`. -/
def mtW5 : MultiTrack :=
  match mtInit envW5 "AAA_BBB" with
  | Except.ok mt => mt
  | Except.error _ => default

theorem mtW5_ok : mtInit envW5 "AAA_BBB" = Except.ok mtW5 := by decide

/-- Environment identical to `envW5` except that the
activation-confidence file does not exist. -/
def envC1 : Env :=
  { metadataPath := "Metadata"
    annotPath := "Annotations"
    audioPath := none
    mixingCoefficients := [("AAA_BBB", [(1, ⟨1, 0⟩)])]
    instF0Type := [("clarinet", "m")]
    fs := fun p =>
      if p = "Metadata/AAA_BBB_METADATA.yaml" then
        some (FileContent.yamlMeta mdW)
      else none }

/-- Claim C1 (code bug): for the track "AAA_BBB" the metadata file
exists and the activation-confidence file does not; the reader dutifully
returns the non-fatal `(None, None)`, yet MultiTrack construction aborts
with a TypeError, because `_get_activation_annotations` iterates
`enumerate(header)` over the `None` header.  The claim (and the spec
contract that a missing annotation file is non-fatal) says construction
should complete with the activations absent. -/
theorem activation_conf_missing_aborts :
    (envC1.fs "Metadata/AAA_BBB_METADATA.yaml").isSome = true ∧
    envC1.fs "Annotations/AAA_BBB_ANNOTATIONS/AAA_BBB_ACTIVATION_CONF.lab" = none ∧
    read_annotation_file envC1.fs
      "Annotations/AAA_BBB_ANNOTATIONS/AAA_BBB_ACTIVATION_CONF.lab" none true =
      Except.ok (none, none) ∧
    get_activation_annotations envC1.fs "Annotations/AAA_BBB_ANNOTATIONS" "AAA_BBB" =
      Except.error PyError.typeError ∧
    mtInit envC1 "AAA_BBB" = Except.error PyError.typeError := by
  refine ⟨rfl, rfl, rfl, rfl, by decide⟩

/-- Claim C2: for every environment and track id in Artist_Title form,
if the expected metadata file is absent then construction fails with
IOError no matter what the rest of the environment holds (the check
precedes all other loading); and construction never succeeds without
the metadata file. -/
theorem mtInit_requires_metadata :
    (∀ (env : Env) (tid : String), 1 < (pySplit tid '_').length →
       env.fs (pjoin env.metadataPath (tid ++ "_METADATA.yaml")) = none →
       mtInit env tid = Except.error PyError.ioError) ∧
    (∀ (env : Env) (tid : String) (mt : MultiTrack),
       mtInit env tid = Except.ok mt →
       (env.fs (pjoin env.metadataPath (tid ++ "_METADATA.yaml"))).isSome = true) := by
  constructor
  · intro env tid hlen hfs
    have h1 : (pySplit tid '_')[1]? = some ((pySplit tid '_')[1]) :=
      List.getElem?_eq_getElem hlen
    simp [mtInit, h1, pyExists, hfs]
  · intro env tid mt hok
    cases hg : (pySplit tid '_')[1]? with
    | none => simp [mtInit, hg] at hok
    | some title =>
        cases hfs : pyExists env.fs (pjoin env.metadataPath (tid ++ "_METADATA.yaml")) with
        | false => simp [mtInit, hg, hfs] at hok
        | true => simpa [pyExists] using hfs

/-- Environment with an entirely empty filesystem. -/
def envC2 : Env :=
  { metadataPath := "Metadata"
    annotPath := "Annotations"
    audioPath := none
    mixingCoefficients := []
    instF0Type := []
    fs := fun _ => none }

theorem mtInit_requires_metadata_witness :
    (1 < (pySplit "AAA_BBB" '_').length ∧
     envC2.fs (pjoin envC2.metadataPath ("AAA_BBB" ++ "_METADATA.yaml")) = none ∧
     mtInit envC2 "AAA_BBB" = Except.error PyError.ioError) ∧
    (mtInit envW5 "AAA_BBB" = Except.ok mtW5 ∧
     (envW5.fs (pjoin envW5.metadataPath ("AAA_BBB" ++ "_METADATA.yaml"))).isSome = true) :=
  ⟨⟨by decide, rfl,
    mtInit_requires_metadata.1 envC2 "AAA_BBB" (by decide) rfl⟩,
   ⟨mtW5_ok,
    mtInit_requires_metadata.2 envW5 "AAA_BBB" mtW5 mtW5_ok⟩⟩

/-- Inversion of a successful construction: every stage succeeded, and
the new object carries the stage results in its fields. -/
theorem mtInit_ok_inversion (env : Env) (tid : String) (mt : MultiTrack)
    (h : mtInit env tid = Except.ok mt) :
    ∃ md melody_rankings mix_coeffs sr predominant,
      env.fs (pjoin env.metadataPath (tid ++ "_METADATA.yaml")) =
        some (FileContent.yamlMeta md) ∧
      get_melody_rankings env.fs
        (pjoin (pjoin env.annotPath (tid ++ "_ANNOTATIONS")) (tid ++ "_RANKING.txt")) =
        Except.ok melody_rankings ∧
      alookup env.mixingCoefficients tid = some mix_coeffs ∧
      (∃ mp sd rd,
        mp = Option.map (fun ap => pjoin (pjoin ap tid) (tid ++ "_MIX.wav")) env.audioPath ∧
        sd = Option.map (fun ap => pjoin (pjoin ap tid) (tid ++ "_STEMS")) env.audioPath ∧
        rd = Option.map (fun ap => pjoin (pjoin ap tid) (tid ++ "_RAW")) env.audioPath ∧
        parse_metadata env tid md melody_rankings mix_coeffs mp sd rd
          (pjoin (pjoin env.annotPath (tid ++ "_ANNOTATIONS")) (tid ++ "_PITCH")) =
          Except.ok sr ∧
        mt.mix_path = mp) ∧
      get_predominant_stem melody_rankings sr.1 = Except.ok predominant ∧
      mt.stems = sr.1 ∧
      mt.raw_audio = sr.2 ∧
      mt.melody_rankings = melody_rankings ∧
      mt.predominant_stem = predominant := by
  simp only [mtInit] at h
  split at h
  · exact Except.noConfusion h
  rename_i title hget
  split at h
  case isFalse => exact Except.noConfusion h
  rename_i hex
  split at h
  case h_2 => exact Except.noConfusion h
  rename_i md hmd
  split at h
  case h_1 => exact Except.noConfusion h
  rename_i melody_rankings hrk
  split at h
  case h_1 => exact Except.noConfusion h
  rename_i mix_coeffs hmc
  split at h
  case h_1 => exact Except.noConfusion h
  rename_i sr hpm
  split at h
  case h_1 => exact Except.noConfusion h
  rename_i dur hdur
  split at h
  case h_1 => exact Except.noConfusion h
  rename_i is_excerpt hye
  split at h
  case h_1 => exact Except.noConfusion h
  rename_i has_bleed hyb
  split at h
  case h_1 => exact Except.noConfusion h
  rename_i is_instrumental hyi
  split at h
  case h_1 => exact Except.noConfusion h
  rename_i predominant hpred
  split at h
  case h_1 => exact Except.noConfusion h
  rename_i activ hact
  injection h with h2
  subst h2
  refine ⟨md, melody_rankings, mix_coeffs, sr, predominant, hmd, hrk, hmc,
    ⟨_, _, _, ?_, ?_, ?_, hpm, rfl⟩, hpred, rfl, rfl, rfl, rfl⟩
  · cases env.audioPath <;> rfl
  · cases env.audioPath <;> rfl
  · cases env.audioPath <;> rfl

/-- A successful `Track.__init__` copies its arguments into the
attributes, leaves the pitch cache empty, and has no duration when
there is no file path. -/
theorem track_init_ok_fields (env : Env) (i : String) (fp : Option String)
    (si : PyIndex) (mp pp : Option String) (ri : PyIndex) (comp : String)
    (r : Option Int) (mc : Option Dec) (t : Track)
    (h : Track.init env i fp si mp pp ri comp r mc = Except.ok t) :
    t.instrument = i ∧ t.file_path = fp ∧ t.component = comp ∧ t.ranking = r ∧
    t.mixing_coefficient = mc ∧ t.mix_path = mp ∧
    t.pitch_annotation_cache = none ∧ t.pitch_path = pp ∧
    (fp = none → t.duration = none) := by
  simp only [Track.init] at h
  split at h
  · exact Except.noConfusion h
  rename_i sIdx hsi
  split at h
  · exact Except.noConfusion h
  rename_i rIdx hri
  split at h
  · exact Except.noConfusion h
  rename_i dur hdur
  injection h with h2
  subst h2
  refine ⟨rfl, rfl, rfl, rfl, rfl, rfl, rfl, rfl, ?_⟩
  intro hfp
  subst hfp
  simp at hdur
  simp [← hdur]

/-- Members of a dict after insertion: the inserted pair or an old one. -/
theorem mem_dictInsert {α β : Type} [DecidableEq α] (d : List (α × β)) (k : α)
    (v : β) (p : α × β) (h : p ∈ dictInsert d k v) : p = (k, v) ∨ p ∈ d := by
  unfold dictInsert at h
  split at h
  · rcases List.mem_map.mp h with ⟨q, hq, heq⟩
    by_cases hk : q.1 = k
    · rw [if_pos hk] at heq
      exact Or.inl heq.symm
    · rw [if_neg hk] at heq
      exact Or.inr (heq ▸ hq)
  · rcases List.mem_append.mp h with h1 | h1
    · exact Or.inr h1
    · exact Or.inl (by simpa using h1)

/-- A successful dict lookup returns a member. -/
theorem alookup_mem {α β : Type} [DecidableEq α] (d : List (α × β)) (k : α)
    (v : β) (h : alookup d k = some v) : (k, v) ∈ d := by
  unfold alookup at h
  cases hf : List.find? (fun p => decide (p.1 = k)) d with
  | none => rw [hf] at h; exact Option.noConfusion h
  | some q =>
      rw [hf] at h
      have hq := List.mem_of_find?_eq_some hf
      have hk : q.1 = k := by
        have hpred := List.find?_some hf
        simpa using hpred
      have hv : q.2 = v := by simpa using h
      have hqe : q = (k, v) := by
        cases q
        simp_all
      exact hqe ▸ hq

/-- Raw-source parsing with no audio root: every raw Track it adds has
no file path and no duration. -/
theorem rawLoop_no_audio (env : Env) (mp rd : Option String) (si : Int)
    (r : Option Int) (henv : env.audioPath = none) :
    ∀ (l : List (String × RawMeta)) (ra ra2 : List (Int × List (Int × Track))),
      (∀ p ∈ ra, ∀ q ∈ p.2, q.2.file_path = none ∧ q.2.duration = none) →
      rawLoop env mp rd si r ra l = Except.ok ra2 →
      (∀ p ∈ ra2, ∀ q ∈ p.2, q.2.file_path = none ∧ q.2.duration = none) := by
  intro l
  induction l with
  | nil =>
      intro ra ra2 hra hloop
      simp only [rawLoop] at hloop
      injection hloop with h2
      subst h2
      exact hra
  | cons x rest ih =>
      intro ra ra2 hra hloop
      obtain ⟨j, rm⟩ := x
      simp only [rawLoop, henv, stem_file_path_none] at hloop
      split at hloop
      · exact Except.noConfusion hloop
      rename_i raw_idx hj
      split at hloop
      · exact Except.noConfusion hloop
      rename_i track htr
      apply ih _ _ _ hloop
      intro p hp q hq
      rcases mem_dictInsert _ _ _ _ hp with hpe | hpd
      · subst hpe
        rcases mem_dictInsert _ _ _ _ hq with hqe | hqd
        · subst hqe
          have hf := track_init_ok_fields _ _ _ _ _ _ _ _ _ _ _ htr
          exact ⟨hf.2.1, hf.2.2.2.2.2.2.2.2 rfl⟩
        · cases hal : alookup ra si with
          | none => rw [hal] at hqd; simp at hqd
          | some inner0 =>
              rw [hal] at hqd
              exact hra _ (alookup_mem _ _ _ hal) q (by simpa using hqd)
      · exact hra p hpd q hq

/-- Stem parsing with no audio root: every stem and raw Track it adds
has no file path and no duration. -/
theorem stemLoop_no_audio (env : Env) (tid : String)
    (mp sd rd : Option String) (pd : String)
    (rankings : List (Int × Int)) (coeffs : List (Int × Dec))
    (henv : env.audioPath = none) :
    ∀ (l : List (String × StemMeta))
      (st st2 : List (Int × Track) × List (Int × List (Int × Track))),
      (∀ p ∈ st.1, p.2.file_path = none ∧ p.2.duration = none) →
      (∀ p ∈ st.2, ∀ q ∈ p.2, q.2.file_path = none ∧ q.2.duration = none) →
      stemLoop env tid mp sd rd pd rankings coeffs st l = Except.ok st2 →
      (∀ p ∈ st2.1, p.2.file_path = none ∧ p.2.duration = none) ∧
      (∀ p ∈ st2.2, ∀ q ∈ p.2, q.2.file_path = none ∧ q.2.duration = none) := by
  intro l
  induction l with
  | nil =>
      intro st st2 hs hr hloop
      simp only [stemLoop] at hloop
      injection hloop with h2
      subst h2
      exact ⟨hs, hr⟩
  | cons x rest ih =>
      intro st st2 hs hr hloop
      obtain ⟨k, sm⟩ := x
      simp only [stemLoop, henv, stem_file_path_none] at hloop
      split at hloop
      · exact Except.noConfusion hloop
      rename_i stem_idx hk
      split at hloop
      · exact Except.noConfusion hloop
      rename_i coeff hc
      split at hloop
      · exact Except.noConfusion hloop
      rename_i track htr
      split at hloop
      · exact Except.noConfusion hloop
      rename_i ra2 hrl
      apply ih _ _ ?_ ?_ hloop
      · intro p hp
        rcases mem_dictInsert _ _ _ _ hp with hpe | hpd
        · subst hpe
          have hf := track_init_ok_fields _ _ _ _ _ _ _ _ _ _ _ htr
          exact ⟨hf.2.1, hf.2.2.2.2.2.2.2.2 rfl⟩
        · exact hs p hpd
      · exact rawLoop_no_audio env mp rd stem_idx _ henv sm.raw st.2 ra2 hr hrl

/-- Claim C5: a MultiTrack constructed while no audio root is
configured has no mix path, and every Track in stems and in raw_audio
has no file path and no duration. -/
theorem mt_no_audio_root (env : Env) (tid : String) (mt : MultiTrack)
    (henv : env.audioPath = none) (h : mtInit env tid = Except.ok mt) :
    mt.mix_path = none ∧
    (∀ p ∈ mt.stems, p.2.file_path = none ∧ p.2.duration = none) ∧
    (∀ p ∈ mt.raw_audio, ∀ q ∈ p.2, q.2.file_path = none ∧ q.2.duration = none) := by
  obtain ⟨md, rankings, coeffs, sr, predominant, hmd, hrk, hmc,
    ⟨mp, sd, rd, hmp, hsd, hrd, hparse, hmix⟩, hpred, hstems, hraw, hmr, hps⟩ :=
    mtInit_ok_inversion env tid mt h
  rw [henv] at hmp hsd hrd
  simp only [Option.map_none'] at hmp hsd hrd
  subst hmp hsd hrd
  simp only [parse_metadata] at hparse
  have hinv := stemLoop_no_audio env tid none none none _ rankings coeffs henv
    md.stems ([], []) sr (by simp) (by simp) hparse
  refine ⟨hmix, ?_, ?_⟩
  · rw [hstems]; exact hinv.1
  · rw [hraw]; exact hinv.2

theorem mt_no_audio_root_witness :
    envW5.audioPath = none ∧
    mtInit envW5 "AAA_BBB" = Except.ok mtW5 ∧
    (mtW5.mix_path = none ∧
     (∀ p ∈ mtW5.stems, p.2.file_path = none ∧ p.2.duration = none) ∧
     (∀ p ∈ mtW5.raw_audio, ∀ q ∈ p.2, q.2.file_path = none ∧ q.2.duration = none)) :=
  ⟨rfl, mtW5_ok, mt_no_audio_root envW5 "AAA_BBB" mtW5 rfl mtW5_ok⟩

/-- Inserting into a dict keeps the keys distinct. -/
theorem dictInsert_keys_nodup {α β : Type} [DecidableEq α] (d : List (α × β))
    (k : α) (v : β) (h : (d.map (fun p => p.1)).Nodup) :
    ((dictInsert d k v).map (fun p => p.1)).Nodup := by
  unfold dictInsert
  split
  · have heq : (d.map (fun p => if p.1 = k then (k, v) else p)).map (fun p => p.1)
        = d.map (fun p => p.1) := by
      rw [List.map_map]
      apply List.map_congr_left
      intro p hp
      by_cases hk : p.1 = k
      · simp [hk]
      · simp [hk]
    rw [heq]
    exact h
  · rename_i hany
    have hnotin : k ∉ d.map (fun p => p.1) := by
      intro hmem
      rcases List.mem_map.mp hmem with ⟨q, hq, hqk⟩
      apply hany
      simp only [List.any_eq_true, decide_eq_true_eq]
      exact ⟨q, hq, hqk⟩
    simp [List.nodup_append, h, hnotin]

/-- In a dict with distinct keys, lookup finds every member. -/
theorem alookup_eq_of_mem {α β : Type} [DecidableEq α] (d : List (α × β))
    (k : α) (v : β) (hmem : (k, v) ∈ d)
    (hnd : (d.map (fun p => p.1)).Nodup) : alookup d k = some v := by
  induction d with
  | nil => simp at hmem
  | cons x xs ih =>
      rw [List.map_cons, List.nodup_cons] at hnd
      rcases List.mem_cons.mp hmem with heq | hm2
      · subst heq
        simp [alookup, List.find?]
      · have hk : k ∈ xs.map (fun p => p.1) := List.mem_map.mpr ⟨(k, v), hm2, rfl⟩
        have hne : x.1 ≠ k := fun he => hnd.1 (he ▸ hk)
        have ihr := ih hm2 hnd.2
        simpa [alookup, List.find?, hne] using ihr

/-- The ranking dict built by the ranking-file loop has distinct keys. -/
theorem rankingLoop_keys_nodup :
    ∀ (rows : List (List String)) (d d2 : List (Int × Int)),
      (d.map (fun p => p.1)).Nodup →
      rankingLoop d rows = Except.ok d2 →
      (d2.map (fun p => p.1)).Nodup := by
  intro rows
  induction rows with
  | nil =>
      intro d d2 hd h
      simp only [rankingLoop] at h
      injection h with h2
      subst h2
      exact hd
  | cons x rest ih =>
      intro d d2 hd h
      simp only [rankingLoop] at h
      split at h
      · exact Except.noConfusion h
      rename_i f0 h0
      split at h
      · exact Except.noConfusion h
      rename_i f1 h1
      split at h
      · exact Except.noConfusion h
      rename_i si hsi
      split at h
      · exact Except.noConfusion h
      rename_i rk hrk2
      exact ih _ _ (dictInsert_keys_nodup _ _ _ hd) h

/-- The melody-rankings dict has distinct stem indices. -/
theorem get_melody_rankings_keys_nodup (fs : FS) (fpath : String)
    (rankings : List (Int × Int))
    (h : get_melody_rankings fs fpath = Except.ok rankings) :
    (rankings.map (fun p => p.1)).Nodup := by
  unfold get_melody_rankings at h
  split at h
  · exact rankingLoop_keys_nodup _ [] rankings (by simp) h
  · exact Except.noConfusion h
  · injection h with h2
    subst h2
    simp

/-- Stem parsing keeps the stem keys distinct and gives every stem
Track the ranking looked up under its own stem index. -/
theorem stemLoop_ranking_inv (env : Env) (tid : String)
    (mp sd rd : Option String) (pd : String)
    (rankings : List (Int × Int)) (coeffs : List (Int × Dec)) :
    ∀ (l : List (String × StemMeta))
      (st st2 : List (Int × Track) × List (Int × List (Int × Track))),
      ((st.1.map (fun p => p.1)).Nodup) →
      (∀ p ∈ st.1, p.2.ranking = alookup rankings p.1) →
      stemLoop env tid mp sd rd pd rankings coeffs st l = Except.ok st2 →
      ((st2.1.map (fun p => p.1)).Nodup) ∧
      (∀ p ∈ st2.1, p.2.ranking = alookup rankings p.1) := by
  intro l
  induction l with
  | nil =>
      intro st st2 hnd hrg hloop
      simp only [stemLoop] at hloop
      injection hloop with h2
      subst h2
      exact ⟨hnd, hrg⟩
  | cons x rest ih =>
      intro st st2 hnd hrg hloop
      obtain ⟨k, sm⟩ := x
      simp only [stemLoop] at hloop
      split at hloop
      · exact Except.noConfusion hloop
      rename_i stem_idx hk
      split at hloop
      · exact Except.noConfusion hloop
      rename_i coeff hc
      split at hloop
      · exact Except.noConfusion hloop
      rename_i track htr
      split at hloop
      · exact Except.noConfusion hloop
      rename_i ra2 hrl
      apply ih _ _ ?_ ?_ hloop
      · exact dictInsert_keys_nodup _ _ _ hnd
      · intro p hp
        rcases mem_dictInsert _ _ _ _ hp with hpe | hpd
        · subst hpe
          have hf := track_init_ok_fields _ _ _ _ _ _ _ _ _ _ _ htr
          exact hf.2.2.2.1
        · exact hrg p hpd

/-- When no stem is ranked 1, a successful `_get_predominant_stem`
returns None. -/
theorem get_predominant_none (rankings : List (Int × Int))
    (stems : List (Int × Track)) (res : Option Track)
    (hndR : (rankings.map (fun p => p.1)).Nodup)
    (hstems : ∀ p ∈ stems, p.2.ranking = alookup rankings p.1)
    (h : get_predominant_stem rankings stems = Except.ok res)
    (hno : ∀ p ∈ stems, p.2.ranking ≠ some 1) :
    res = none := by
  unfold get_predominant_stem at h
  split at h
  · split at h
    · injection h with h2
      exact h2.symm
    rename_i k rest hfil
    split at h
    · rename_i t hal
      have hkmem : k ∈ (rankings.filter (fun p => decide (p.2 = 1))).map
          (fun p => p.1) := by
        rw [hfil]
        exact List.mem_cons_self _ _
      rcases List.mem_map.mp hkmem with ⟨q, hqf, hqk⟩
      have hq := List.mem_filter.mp hqf
      have hq1 : q.2 = 1 := by simpa using hq.2
      have hqkv : q = (k, 1) := by
        cases q
        simp_all
      have hlk : alookup rankings k = some 1 :=
        alookup_eq_of_mem _ _ _ (hqkv ▸ hq.1) hndR
      have hts := hstems (k, t) (alookup_mem _ _ _ hal)
      have ht1 : t.ranking = some 1 := by
        rw [hts]
        exact hlk
      exact absurd ht1 (hno (k, t) (alookup_mem _ _ _ hal))
    · exact Except.noConfusion h
  · injection h with h2
    exact h2.symm

/-- When exactly one stem is ranked 1, a successful
`_get_predominant_stem` returns that stem. -/
theorem get_predominant_unique (rankings : List (Int × Int))
    (stems : List (Int × Track)) (res : Option Track) (k : Int) (t : Track)
    (hndR : (rankings.map (fun p => p.1)).Nodup)
    (hstems : ∀ p ∈ stems, p.2.ranking = alookup rankings p.1)
    (_hndS : (stems.map (fun p => p.1)).Nodup)
    (h : get_predominant_stem rankings stems = Except.ok res)
    (hfil : stems.filter (fun p => decide (p.2.ranking = some 1)) = [(k, t)]) :
    res = some t := by
  have hktf : (k, t) ∈ stems.filter (fun p => decide (p.2.ranking = some 1)) := by
    rw [hfil]
    exact List.mem_cons_self _ _
  have hktm := List.mem_filter.mp hktf
  have ht1 : t.ranking = some 1 := by simpa using hktm.2
  have hlk : alookup rankings k = some 1 :=
    (hstems (k, t) hktm.1).symm.trans ht1
  have hk1 : (k, 1) ∈ rankings := alookup_mem _ _ _ hlk
  have hlen : rankings.length > 0 :=
    List.length_pos.mpr (List.ne_nil_of_mem hk1)
  unfold get_predominant_stem at h
  rw [if_pos hlen] at h
  cases hfm : (rankings.filter (fun p => decide (p.2 = 1))).map (fun p => p.1) with
  | nil =>
      have hkin : k ∈ (rankings.filter (fun p => decide (p.2 = 1))).map
          (fun p => p.1) :=
        List.mem_map.mpr ⟨(k, 1), List.mem_filter.mpr ⟨hk1, by simp⟩, rfl⟩
      rw [hfm] at hkin
      simp at hkin
  | cons k0 rest =>
      simp only [hfm] at h
      have hk0mem : k0 ∈ (rankings.filter (fun p => decide (p.2 = 1))).map
          (fun p => p.1) := by
        rw [hfm]
        exact List.mem_cons_self _ _
      rcases List.mem_map.mp hk0mem with ⟨q, hqf, hqk⟩
      have hqm := List.mem_filter.mp hqf
      have hq1 : q.2 = 1 := by simpa using hqm.2
      have hqkv : q = (k0, 1) := by
        cases q
        simp_all
      have hlk0 : alookup rankings k0 = some 1 :=
        alookup_eq_of_mem _ _ _ (hqkv ▸ hqm.1) hndR
      cases hal : alookup stems k0 with
      | none =>
          simp only [hal] at h
          exact Except.noConfusion h
      | some t0 =>
          simp only [hal] at h
          injection h with h2
          have ht0mem := alookup_mem _ _ _ hal
          have ht0rank : t0.ranking = some 1 := by
            rw [hstems (k0, t0) ht0mem]
            exact hlk0
          have ht0f : (k0, t0) ∈ stems.filter
              (fun p => decide (p.2.ranking = some 1)) :=
            List.mem_filter.mpr ⟨ht0mem, by simp [ht0rank]⟩
          rw [hfil] at ht0f
          have : k0 = k ∧ t0 = t := by simpa using ht0f
          rw [← h2, this.2]

/-- Claim C6: for every constructed MultiTrack, predominant_stem is None
when no stem has melody ranking 1, and when exactly one stem has
ranking 1 it is that stem Track. -/
theorem mt_predominant_stem_spec (env : Env) (tid : String) (mt : MultiTrack)
    (h : mtInit env tid = Except.ok mt) :
    ((∀ p ∈ mt.stems, p.2.ranking ≠ some 1) → mt.predominant_stem = none) ∧
    (∀ (k : Int) (t : Track),
       mt.stems.filter (fun p => decide (p.2.ranking = some 1)) = [(k, t)] →
       mt.predominant_stem = some t) := by
  obtain ⟨md, rankings, coeffs, sr, predominant, hmd, hrk, hmc,
    ⟨mp, sd, rd, hmp, hsd, hrd, hparse, hmix⟩, hpred, hstems, hraw, hmr, hps⟩ :=
    mtInit_ok_inversion env tid mt h
  have hndR := get_melody_rankings_keys_nodup _ _ _ hrk
  simp only [parse_metadata] at hparse
  have hinv := stemLoop_ranking_inv env tid mp sd rd _ rankings coeffs
    md.stems ([], []) sr (by simp) (by simp) hparse
  constructor
  · intro hno
    rw [hstems] at hno
    rw [hps]
    exact get_predominant_none rankings sr.1 predominant hndR hinv.2 hpred hno
  · intro k t hfil
    rw [hstems] at hfil
    rw [hps]
    exact get_predominant_unique rankings sr.1 predominant k t hndR hinv.2
      hinv.1 hpred hfil

/-- Environment like `envW5` but with a melody-ranking file assigning
rank 1 to stem 1. -/
def envC6 : Env :=
  { metadataPath := "Metadata"
    annotPath := "Annotations"
    audioPath := none
    mixingCoefficients := [("AAA_BBB", [(1, ⟨1, 0⟩)])]
    instF0Type := [("clarinet", "m")]
    fs := fun p =>
      if p = "Metadata/AAA_BBB_METADATA.yaml" then
        some (FileContent.yamlMeta mdW)
      else if p = "Annotations/AAA_BBB_ANNOTATIONS/AAA_BBB_ACTIVATION_CONF.lab" then
        some (FileContent.text [["time", "S01"], ["0.0", "1.0"]])
      else if p = "Annotations/AAA_BBB_ANNOTATIONS/AAA_BBB_RANKING.txt" then
        some (FileContent.text [["AAA_BBB_STEM_01.wav", "1"]])
      else none }

/-- The MultiTrack built from `envC6`. -/
def mtC6 : MultiTrack :=
  match mtInit envC6 "AAA_BBB" with
  | Except.ok mt => mt
  | Except.error _ => default

theorem mtC6_ok : mtInit envC6 "AAA_BBB" = Except.ok mtC6 := by decide

/-- The unique rank-1 stem Track of `mtC6`. -/
def tC6 : Track :=
  match alookup mtC6.stems 1 with
  | some t => t
  | none => default

theorem mt_predominant_stem_spec_witness :
    (mtInit envW5 "AAA_BBB" = Except.ok mtW5 ∧
     (∀ p ∈ mtW5.stems, p.2.ranking ≠ some 1) ∧
     mtW5.predominant_stem = none) ∧
    (mtInit envC6 "AAA_BBB" = Except.ok mtC6 ∧
     mtC6.stems.filter (fun p => decide (p.2.ranking = some 1)) = [(1, tC6)] ∧
     mtC6.predominant_stem = some tC6) :=
  ⟨⟨mtW5_ok, by decide,
    (mt_predominant_stem_spec envW5 "AAA_BBB" mtW5 mtW5_ok).1 (by decide)⟩,
   ⟨mtC6_ok, by decide,
    (mt_predominant_stem_spec envC6 "AAA_BBB" mtC6 mtC6_ok).2 1 tC6 (by decide)⟩⟩

/-- Number of file opens a `read_annotation_file` call performs: the
file is opened exactly when it exists (a missing file is only an
existence check plus a printed warning). -/
def fileOpens (fs : FS) (p : String) : Nat := if (fs p).isSome then 1 else 0

/-- A read that produced no annotation can only come from a missing
file. -/
theorem read_ok_none (fs : FS) (p : String) (nc : Option Nat) (hd : Bool)
    (hh : Option (List String))
    (h : read_annotation_file fs p nc hd = Except.ok (none, hh)) :
    fs p = none := by
  unfold read_annotation_file at h
  split at h
  · split at h
    · exact Except.noConfusion h
    split at h
    · exact Except.noConfusion h
    injection h with h2
    simp at h2
  · exact Except.noConfusion h
  · rename_i hfs
    exact hfs

/-- Embedding of the `melody1_annotation` property body (lines 226-237):
fill the cache from the file on a cache miss, then return the cache. -/
def multitrack_melody1 (fs : FS) (mt : MultiTrack) :
    Except PyError (MultiTrack × Option Ann × Nat) :=
  match mt.melody1_annotation_cache with
  | some a => Except.ok (mt, some a, 0)
  | none =>
      match read_annotation_file fs
          (pjoin mt.annotation_dir (mt.track_id ++ "_MELODY1.csv")) none false with
      | Except.error e => Except.error e
      | Except.ok r =>
          Except.ok ({ mt with melody1_annotation_cache := r.1 }, r.1,
            fileOpens fs (pjoin mt.annotation_dir (mt.track_id ++ "_MELODY1.csv")))

/-- Embedding of the `melody2_annotation` property body (lines 239-250). -/
def multitrack_melody2 (fs : FS) (mt : MultiTrack) :
    Except PyError (MultiTrack × Option Ann × Nat) :=
  match mt.melody2_annotation_cache with
  | some a => Except.ok (mt, some a, 0)
  | none =>
      match read_annotation_file fs
          (pjoin mt.annotation_dir (mt.track_id ++ "_MELODY2.csv")) none false with
      | Except.error e => Except.error e
      | Except.ok r =>
          Except.ok ({ mt with melody2_annotation_cache := r.1 }, r.1,
            fileOpens fs (pjoin mt.annotation_dir (mt.track_id ++ "_MELODY2.csv")))

/-- Embedding of the `melody3_annotation` property body (lines 252-263). -/
def multitrack_melody3 (fs : FS) (mt : MultiTrack) :
    Except PyError (MultiTrack × Option Ann × Nat) :=
  match mt.melody3_annotation_cache with
  | some a => Except.ok (mt, some a, 0)
  | none =>
      match read_annotation_file fs
          (pjoin mt.annotation_dir (mt.track_id ++ "_MELODY3.csv")) none false with
      | Except.error e => Except.error e
      | Except.ok r =>
          Except.ok ({ mt with melody3_annotation_cache := r.1 }, r.1,
            fileOpens fs (pjoin mt.annotation_dir (mt.track_id ++ "_MELODY3.csv")))

/-- Embedding of the `Track.pitch_annotation` property body (lines
589-597): load only when a pitch path is configured and the cache is
empty (`num_cols=2` for Tony files). -/
def track_pitch (fs : FS) (t : Track) :
    Except PyError (Track × Option Ann × Nat) :=
  match t.pitch_path, t.pitch_annotation_cache with
  | some p, none =>
      match read_annotation_file fs p (some 2) false with
      | Except.error e => Except.error e
      | Except.ok r =>
          Except.ok ({ t with pitch_annotation_cache := r.1 }, r.1, fileOpens fs p)
  | _, _ => Except.ok (t, t.pitch_annotation_cache, 0)

/-- A sequence of `n` accessor calls: the final state, the list of
returned values, and the total number of file opens. -/
def accessSeq {σ : Type} (step : σ → Except PyError (σ × Option Ann × Nat)) :
    Nat → σ → Except PyError (σ × List (Option Ann) × Nat)
  | 0, s => Except.ok (s, [], 0)
  | n + 1, s =>
      match step s with
      | Except.error e => Except.error e
      | Except.ok r =>
          match accessSeq step n r.1 with
          | Except.error e => Except.error e
          | Except.ok r2 => Except.ok (r2.1, r.2.1 :: r2.2.1, r.2.2 + r2.2.2)

/-- A step that returns the same state, a fixed value and no file opens
repeats forever. -/
theorem accessSeq_fixed {σ : Type}
    (step : σ → Except PyError (σ × Option Ann × Nat)) (s : σ) (a : Option Ann)
    (hs : step s = Except.ok (s, a, 0)) :
    ∀ n, accessSeq step n s = Except.ok (s, List.replicate n a, 0) := by
  intro n
  induction n with
  | zero => rfl
  | succ n ih => simp [accessSeq, hs, ih, List.replicate_succ]

/-- The guarded fill-on-read pattern shared by the four lazy accessors:
across any number of accesses starting from an empty cache, the file is
opened at most once and every access returns the same value. -/
theorem accessSeq_lazy {σ : Type} (fs : FS)
    (step : σ → Except PyError (σ × Option Ann × Nat))
    (get : σ → Option Ann) (set : σ → Option Ann → σ)
    (path : σ → Option String) (nc : Option Nat)
    (hstep : ∀ s, step s =
      (match path s, get s with
       | some p, none =>
           (match read_annotation_file fs p nc false with
            | Except.error e => Except.error e
            | Except.ok r => Except.ok (set s r.1, r.1, fileOpens fs p))
       | _, _ => Except.ok (s, get s, 0)))
    (hget_set : ∀ s c, get (set s c) = c)
    (hset_none : ∀ s, get s = none → set s none = s) :
    ∀ (n : Nat) (s : σ) (p : String) (v : Option Ann) (hh : Option (List String)),
      path s = some p → get s = none →
      read_annotation_file fs p nc false = Except.ok (v, hh) →
      ∃ s2 r, accessSeq step n s = Except.ok (s2, List.replicate n v, r) ∧ r ≤ 1 := by
  intro n
  induction n with
  | zero =>
      intro s p v hh hp hg hread
      exact ⟨s, 0, rfl, Nat.zero_le 1⟩
  | succ n ih =>
      intro s p v hh hp hg hread
      have hs : step s = Except.ok (set s v, v, fileOpens fs p) := by
        rw [hstep s, hp, hg]
        simp [hread]
      cases v with
      | some a =>
          have hcached : step (set s (some a)) =
              Except.ok (set s (some a), some a, 0) := by
            rw [hstep (set s (some a))]
            cases hps : path (set s (some a)) with
            | none => simp [hget_set]
            | some p2 => simp [hget_set]
          have hrest := accessSeq_fixed step (set s (some a)) (some a) hcached n
          refine ⟨set s (some a), fileOpens fs p + 0, ?_, ?_⟩
          · simp [accessSeq, hs, hrest, List.replicate_succ]
          · have h1 : fileOpens fs p ≤ 1 := by
              unfold fileOpens
              split
              · exact le_refl 1
              · exact Nat.zero_le 1
            omega
      | none =>
          have hsetn : set s none = s := hset_none s hg
          rw [hsetn] at hs
          have hfsp : fs p = none := read_ok_none fs p nc false hh hread
          have hopen : fileOpens fs p = 0 := by
            unfold fileOpens
            rw [hfsp]
            rfl
          rw [hopen] at hs
          obtain ⟨s2, r, hrec, hrle⟩ := ih s p none hh hp hg hread
          refine ⟨s2, 0 + r, ?_, by omega⟩
          simp [accessSeq, hs, hrec, List.replicate_succ]

/-- Claim C7: for each lazily-cached annotation accessor
(melody1/2/3_annotation and Track.pitch_annotation), across any
sequence of accesses from a fresh instance the underlying file is
opened at most once, and every access returns the same (cached) value;
a Track with no pitch path configured never opens a file at all. -/
theorem lazy_annotation_caching :
    (∀ (fs : FS) (n : Nat) (mt : MultiTrack) (v : Option Ann)
       (hh : Option (List String)),
       mt.melody1_annotation_cache = none →
       read_annotation_file fs
         (pjoin mt.annotation_dir (mt.track_id ++ "_MELODY1.csv")) none false =
         Except.ok (v, hh) →
       ∃ mt2 r, accessSeq (multitrack_melody1 fs) n mt =
         Except.ok (mt2, List.replicate n v, r) ∧ r ≤ 1) ∧
    (∀ (fs : FS) (n : Nat) (mt : MultiTrack) (v : Option Ann)
       (hh : Option (List String)),
       mt.melody2_annotation_cache = none →
       read_annotation_file fs
         (pjoin mt.annotation_dir (mt.track_id ++ "_MELODY2.csv")) none false =
         Except.ok (v, hh) →
       ∃ mt2 r, accessSeq (multitrack_melody2 fs) n mt =
         Except.ok (mt2, List.replicate n v, r) ∧ r ≤ 1) ∧
    (∀ (fs : FS) (n : Nat) (mt : MultiTrack) (v : Option Ann)
       (hh : Option (List String)),
       mt.melody3_annotation_cache = none →
       read_annotation_file fs
         (pjoin mt.annotation_dir (mt.track_id ++ "_MELODY3.csv")) none false =
         Except.ok (v, hh) →
       ∃ mt2 r, accessSeq (multitrack_melody3 fs) n mt =
         Except.ok (mt2, List.replicate n v, r) ∧ r ≤ 1) ∧
    (∀ (fs : FS) (n : Nat) (t : Track) (p : String) (v : Option Ann)
       (hh : Option (List String)),
       t.pitch_annotation_cache = none → t.pitch_path = some p →
       read_annotation_file fs p (some 2) false = Except.ok (v, hh) →
       ∃ t2 r, accessSeq (track_pitch fs) n t =
         Except.ok (t2, List.replicate n v, r) ∧ r ≤ 1) ∧
    (∀ (fs : FS) (n : Nat) (t : Track), t.pitch_path = none →
       accessSeq (track_pitch fs) n t =
         Except.ok (t, List.replicate n t.pitch_annotation_cache, 0)) := by
  refine ⟨?_, ?_, ?_, ?_, ?_⟩
  · intro fs n mt v hh hc hread
    exact accessSeq_lazy fs (multitrack_melody1 fs)
      (fun mt => mt.melody1_annotation_cache)
      (fun mt c => { mt with melody1_annotation_cache := c })
      (fun mt => some (pjoin mt.annotation_dir (mt.track_id ++ "_MELODY1.csv")))
      none
      (fun s => by
        cases hcs : s.melody1_annotation_cache <;>
          simp [multitrack_melody1, hcs])
      (fun s c => rfl)
      (fun s hg => by cases s; simp_all)
      n mt _ v hh rfl hc hread
  · intro fs n mt v hh hc hread
    exact accessSeq_lazy fs (multitrack_melody2 fs)
      (fun mt => mt.melody2_annotation_cache)
      (fun mt c => { mt with melody2_annotation_cache := c })
      (fun mt => some (pjoin mt.annotation_dir (mt.track_id ++ "_MELODY2.csv")))
      none
      (fun s => by
        cases hcs : s.melody2_annotation_cache <;>
          simp [multitrack_melody2, hcs])
      (fun s c => rfl)
      (fun s hg => by cases s; simp_all)
      n mt _ v hh rfl hc hread
  · intro fs n mt v hh hc hread
    exact accessSeq_lazy fs (multitrack_melody3 fs)
      (fun mt => mt.melody3_annotation_cache)
      (fun mt c => { mt with melody3_annotation_cache := c })
      (fun mt => some (pjoin mt.annotation_dir (mt.track_id ++ "_MELODY3.csv")))
      none
      (fun s => by
        cases hcs : s.melody3_annotation_cache <;>
          simp [multitrack_melody3, hcs])
      (fun s c => rfl)
      (fun s hg => by cases s; simp_all)
      n mt _ v hh rfl hc hread
  · intro fs n t p v hh hc hp hread
    exact accessSeq_lazy fs (track_pitch fs)
      (fun t => t.pitch_annotation_cache)
      (fun t c => { t with pitch_annotation_cache := c })
      (fun t => t.pitch_path)
      (some 2)
      (fun s => by
        cases hps : s.pitch_path <;>
          cases hcs : s.pitch_annotation_cache <;>
            simp [track_pitch, hps, hcs])
      (fun s c => rfl)
      (fun s hg => by cases s; simp_all)
      n t p v hh hp hc hread
  · intro fs n t hp
    apply accessSeq_fixed
    cases hc : t.pitch_annotation_cache <;> simp [track_pitch, hp, hc]

/-- The raw-source Track of `mtW5` (stem 1, raw 1): built without a
pitch path. -/
def rawT5 : Track :=
  match alookup mtW5.raw_audio 1 with
  | some inner =>
      match alookup inner 1 with
      | some t => t
      | none => default
  | none => default

theorem lazy_annotation_caching_witness :
    (mtW5.melody1_annotation_cache = none ∧
     read_annotation_file envW5.fs
       (pjoin mtW5.annotation_dir (mtW5.track_id ++ "_MELODY1.csv")) none false =
       Except.ok (none, none) ∧
     ∃ mt2 r, accessSeq (multitrack_melody1 envW5.fs) 2 mtW5 =
       Except.ok (mt2, List.replicate 2 (none : Option Ann), r) ∧ r ≤ 1) ∧
    (mtW5.melody2_annotation_cache = none ∧
     ∃ mt2 r, accessSeq (multitrack_melody2 envW5.fs) 2 mtW5 =
       Except.ok (mt2, List.replicate 2 (none : Option Ann), r) ∧ r ≤ 1) ∧
    (mtW5.melody3_annotation_cache = none ∧
     ∃ mt2 r, accessSeq (multitrack_melody3 envW5.fs) 2 mtW5 =
       Except.ok (mt2, List.replicate 2 (none : Option Ann), r) ∧ r ≤ 1) ∧
    (tC6.pitch_annotation_cache = none ∧
     tC6.pitch_path =
       some "Annotations/AAA_BBB_ANNOTATIONS/AAA_BBB_PITCH/AAA_BBB_STEM_01.csv" ∧
     ∃ t2 r, accessSeq (track_pitch envC6.fs) 3 tC6 =
       Except.ok (t2, List.replicate 3 (none : Option Ann), r) ∧ r ≤ 1) ∧
    (rawT5.pitch_path = none ∧
     accessSeq (track_pitch envW5.fs) 2 rawT5 =
       Except.ok (rawT5, List.replicate 2 rawT5.pitch_annotation_cache, 0)) :=
  ⟨⟨by decide, by decide,
    lazy_annotation_caching.1 envW5.fs 2 mtW5 none none (by decide) (by decide)⟩,
   ⟨by decide,
    lazy_annotation_caching.2.1 envW5.fs 2 mtW5 none none (by decide) (by decide)⟩,
   ⟨by decide,
    lazy_annotation_caching.2.2.1 envW5.fs 2 mtW5 none none (by decide) (by decide)⟩,
   ⟨by decide, by decide,
    lazy_annotation_caching.2.2.2.1 envC6.fs 3 tC6
      "Annotations/AAA_BBB_ANNOTATIONS/AAA_BBB_PITCH/AAA_BBB_STEM_01.csv"
      none none (by decide) (by decide) (by decide)⟩,
   ⟨by decide,
    lazy_annotation_caching.2.2.2.2 envW5.fs 2 rawT5 (by decide)⟩⟩
